import Mathlib

/-!
# Verification of `mcp-git.py`

A shallow embedding of the repository's single source file `mcp-git.py`:

* `mCall_CollectFiles` — recursively walks a local root directory and turns
  every regular file into a push record (`FileRecord`), classifying it as
  UTF-8 text or base64-encoded binary;
* `rCall_PushAndPR` — the publish workflow: collect files, open a session
  with the remote MCP service, then create-branch / push-files /
  create-pull-request in order.

Modelling conventions:

* Python `bytes` are `List Nat` with every element `< 256`;
* a Python `str` is a Lean `String` (a sequence of Unicode codepoints); where
  character-level reasoning is needed we work on `String.data : List Char`;
* decoded text content is represented by its codepoint sequence `List Nat`
  (for a base64 record the content string is ASCII, so its codepoints are
  exactly the base64 character codes);
* the filesystem seen by `Path.rglob` is an explicit list of absolute
  entries (`Fs`), and reading a file may fail (`Except`), mirroring the
  exceptions `read_bytes` can raise;
* the remote MCP service is an oracle environment (`RemoteEnv`) recording,
  for each of the three tools, whether invoking it raises; the workflow's
  observable behaviour is a trace of events plus an optional propagated
  error.
-/

set_option autoImplicit false

namespace McpGit

/-! ## Base64 (model of Python `base64.b64encode` / `b64decode`) -/

/-- The base64 alphabet: character code of digit `n < 64`
(`A-Z`, `a-z`, `0-9`, `+`, `/`). -/
def b64char (n : Nat) : Nat :=
  if n < 26 then 65 + n
  else if n < 52 then 97 + (n - 26)
  else if n < 62 then 48 + (n - 52)
  else if n = 62 then 43
  else 47

/-- Inverse of `b64char` on the base64 alphabet. -/
def b64charInv (c : Nat) : Nat :=
  if 65 ≤ c ∧ c ≤ 90 then c - 65
  else if 97 ≤ c ∧ c ≤ 122 then c - 97 + 26
  else if 48 ≤ c ∧ c ≤ 57 then c - 48 + 52
  else if c = 43 then 62
  else 63

/-- Model of `base64.b64encode(raw).decode()`: the ASCII codes of the base64
text for a byte string, padded with `=` (code 61). -/
def b64encode : List Nat → List Nat
  | [] => []
  | [b0] =>
      [b64char (b0 / 4), b64char (b0 % 4 * 16), 61, 61]
  | [b0, b1] =>
      [b64char (b0 / 4), b64char (b0 % 4 * 16 + b1 / 16),
       b64char (b1 % 16 * 4), 61]
  | b0 :: b1 :: b2 :: rest =>
      b64char (b0 / 4) :: b64char (b0 % 4 * 16 + b1 / 16) ::
      b64char (b1 % 16 * 4 + b2 / 64) :: b64char (b2 % 64) ::
      b64encode rest

/-- Base64 decoding of a padded base64 character string back to bytes. -/
def b64decode : List Nat → Option (List Nat)
  | [] => some []
  | x0 :: x1 :: x2 :: x3 :: rest =>
      if x2 = 61 ∧ x3 = 61 ∧ rest = [] then
        some [b64charInv x0 * 4 + b64charInv x1 / 16]
      else if x3 = 61 ∧ rest = [] then
        some [b64charInv x0 * 4 + b64charInv x1 / 16,
              b64charInv x1 % 16 * 16 + b64charInv x2 / 4]
      else
        match b64decode rest with
        | some bs =>
            some ((b64charInv x0 * 4 + b64charInv x1 / 16) ::
                  (b64charInv x1 % 16 * 16 + b64charInv x2 / 4) ::
                  (b64charInv x2 % 4 * 64 + b64charInv x3) :: bs)
        | none => none
  | _ => none

/-! ## Strict UTF-8 decoding (model of Python `bytes.decode("utf-8")`)

Returns the codepoint sequence on success, `none` on any malformed input
(`UnicodeDecodeError`): stray continuation bytes, truncated sequences,
overlong encodings, surrogates and codepoints above `U+10FFFF` are all
rejected, exactly as CPython's strict UTF-8 codec does. -/

/-- Is `b` a UTF-8 continuation byte (`0x80..0xBF`)? -/
def isCont (b : Nat) : Bool := 128 ≤ b && b ≤ 191

/-- Strict UTF-8 decoder: byte string to codepoint sequence. -/
def utf8Decode : List Nat → Option (List Nat)
  | [] => some []
  | b0 :: rest =>
      if b0 < 128 then
        (utf8Decode rest).map (b0 :: ·)
      else if 194 ≤ b0 ∧ b0 ≤ 223 then
        match rest with
        | b1 :: rest2 =>
            if isCont b1 then
              (utf8Decode rest2).map (((b0 - 192) * 64 + (b1 - 128)) :: ·)
            else none
        | [] => none
      else if 224 ≤ b0 ∧ b0 ≤ 239 then
        match rest with
        | b1 :: b2 :: rest3 =>
            if (if b0 = 224 then 160 ≤ b1 && b1 ≤ 191
                else if b0 = 237 then 128 ≤ b1 && b1 ≤ 159
                else isCont b1) && isCont b2 then
              (utf8Decode rest3).map
                (((b0 - 224) * 4096 + (b1 - 128) * 64 + (b2 - 128)) :: ·)
            else none
        | _ => none
      else if 240 ≤ b0 ∧ b0 ≤ 244 then
        match rest with
        | b1 :: b2 :: b3 :: rest4 =>
            if (if b0 = 240 then 144 ≤ b1 && b1 ≤ 191
                else if b0 = 244 then 128 ≤ b1 && b1 ≤ 143
                else isCont b1) && isCont b2 && isCont b3 then
              (utf8Decode rest4).map
                (((b0 - 240) * 262144 + (b1 - 128) * 4096 +
                  (b2 - 128) * 64 + (b3 - 128)) :: ·)
            else none
        | _ => none
      else none

/-! ## POSIX path joining (model of `str(PurePosixPath(prefix) / rel)`)

`PurePosixPath` parsing drops empty components and `"."` components and
keeps a root of `/` or `//` (exactly two leading slashes are preserved;
one, or three or more, collapse to `/`). Joining with a relative path
appends its components; `str` re-joins everything with `/`. -/

/-- Split a character list on `/`, keeping empty pieces
(the character-level `str.split("/")`). -/
def splitSlash : List Char → List (List Char)
  | [] => [[]]
  | c :: rest =>
      if c = '/' then [] :: splitSlash rest
      else
        match splitSlash rest with
        | h :: t => (c :: h) :: t
        | [] => [[c]]

/-- The components `PurePosixPath` keeps: nonempty and not `"."`. -/
def keepComp (c : List Char) : Bool := !c.isEmpty && c ≠ ['.']

/-- Parsed (non-root) components of a POSIX path string. -/
def parseParts (s : List Char) : List (List Char) :=
  (splitSlash s).filter keepComp

/-- The root prefix `PurePosixPath` records: `//` for exactly two leading
slashes, `/` for one or for three or more, empty otherwise. -/
def posixRoot : List Char → List Char
  | [] => []
  | c1 :: rest =>
      if c1 = '/' then
        match rest with
        | [] => ['/']
        | c2 :: rest2 =>
            if c2 = '/' then
              match rest2 with
              | [] => ['/', '/']
              | c3 :: _ => if c3 = '/' then ['/'] else ['/', '/']
            else ['/']
      else []

/-- Join path components with `/` separators. -/
def joinComps : List (List Char) → List Char
  | [] => []
  | [p] => p
  | p :: q :: rest => p ++ '/' :: joinComps (q :: rest)

/-- Model of `str(PurePosixPath(prefix) / rel)` where `rel` is a list of
plain (relative) components. An empty result prints as `"."`. -/
def posixJoin (pre : List Char) (rel : List (List Char)) : List Char :=
  let parts := parseParts pre ++ rel
  let root := posixRoot pre
  if root = [] ∧ parts = [] then ['.'] else root ++ joinComps parts

/-! ## Filesystem model and the file collector (`mCall_CollectFiles`)

The filesystem visible to `root.rglob("*")` is a list of absolute entries,
each a path (list of name components) that is either a directory or a
regular file. Reading a file (`p.read_bytes()`) yields its bytes or raises,
hence `Except`. `rglob` enumerates, in traversal order, every entry lying
strictly below the root — and, as in `pathlib`, yields nothing at all when
the root is not an existing directory. -/

deriving instance DecidableEq for Except

/-- What a filesystem entry is: a directory, or a regular file whose read
either returns its raw bytes or raises an error. -/
inductive EntryKind where
  | dir : EntryKind
  | file (readBytes : Except String (List Nat)) : EntryKind
  deriving DecidableEq, Repr

/-- An absolute filesystem entry: its path as name components plus its kind. -/
structure AbsEntry where
  path : List String
  kind : EntryKind
  deriving DecidableEq, Repr

/-- A filesystem: the entries, in the traversal order `rglob` reports. -/
structure Fs where
  entries : List AbsEntry
  deriving DecidableEq, Repr

/-- Is `e.kind` a directory? -/
def EntryKind.isDir : EntryKind → Bool
  | .dir => true
  | .file _ => false

/-- Does `fs` contain `root` as a directory (so `root.is_dir()` holds)? -/
def isDirAt (fs : Fs) (root : List String) : Bool :=
  fs.entries.any (fun e => e.path = root && e.kind.isDir)

/-- The path of `p` relative to `root`, when `p` lies strictly below
`root`; `none` otherwise. -/
def underRoot (root p : List String) : Option (List String) :=
  if root.isPrefixOf p ∧ p ≠ root then some (p.drop root.length) else none

/-- Model of `root.rglob("*")`: all entries strictly below `root`, as
(relative path, kind) pairs in traversal order; empty when `root` is not an
existing directory (`pathlib` checks `is_dir()` before scanning). -/
def rglob (fs : Fs) (root : List String) : List (List String × EntryKind) :=
  if isDirAt fs root then
    fs.entries.filterMap (fun e => (underRoot root e.path).map (fun r => (r, e.kind)))
  else []

/-- One record of the `push_files` payload, as built by the collector:
`path` is the remote path string; `content` is the Python string's
codepoint sequence (decoded text, or the ASCII codes of the base64 text);
`encoding` is `some "base64"` exactly when the binary branch was taken. -/
structure FileRecord where
  path : String
  content : List Nat
  encoding : Option String
  deriving DecidableEq, Repr

/-- Character-level model of Python `str.startswith`. -/
def strStartsWith (s pre : String) : Bool :=
  pre.data.isPrefixOf s.data

/-- The remote path `str(PurePosixPath(remotePfx) / rel)` as a `String`
(source line 51). -/
def remotePathOf (remotePfx : String) (rel : List String) : String :=
  ⟨posixJoin remotePfx.data (rel.map String.data)⟩

/-- The record built for one regular file (source lines 51–71): guess the
MIME type from the filename; on a `text/*` guess try strict UTF-8 decoding
and emit plain text on success; otherwise fall back to base64 with
`encoding: "base64"`. `guessType` stands for `mimetypes.guess_type`
restricted to its first component. -/
def mkRecord (guessType : String → Option String) (remotePfx : String)
    (rel : List String) (raw : List Nat) : FileRecord :=
  let rp := remotePathOf remotePfx rel
  match guessType (rel.getLastD "") with
  | some mime =>
      if strStartsWith mime "text/" then
        match utf8Decode raw with
        | some cps => ⟨rp, cps, none⟩
        | none => ⟨rp, b64encode raw, some "base64"⟩
      else ⟨rp, b64encode raw, some "base64"⟩
  | none => ⟨rp, b64encode raw, some "base64"⟩

/-- The collector's loop over the `rglob` results: skip directories, read
each regular file (propagating a read error, as the uncaught exception
aborts the whole call), and append its record. -/
def collectLoop (guessType : String → Option String) (remotePfx : String) :
    List (List String × EntryKind) → Except String (List FileRecord)
  | [] => .ok []
  | (_, .dir) :: rest => collectLoop guessType remotePfx rest
  | (rel, .file readBytes) :: rest =>
      match readBytes with
      | .error e => .error e
      | .ok raw =>
          match collectLoop guessType remotePfx rest with
          | .error e => .error e
          | .ok others => .ok (mkRecord guessType remotePfx rel raw :: others)

/-- Model of `mCall_CollectFiles(root, remote_prefix)` (source lines 24–73):
walk
`root` recursively and build the `push_files` payload. The filesystem and
the MIME-guessing table are explicit parameters of the model. -/
def mCall_CollectFiles (guessType : String → Option String) (fs : Fs)
    (root : List String) (remotePfx : String) :
    Except String (List FileRecord) :=
  collectLoop guessType remotePfx (rglob fs root)

/-! ## The publish workflow (`rCall_PushAndPR`)

Source lines 79–149. The remote MCP service is modelled as an oracle
environment: the tool catalog `get_tools()` reports, and for each of the
three tools, whether invoking it raises (`some error`) or succeeds
(`none`). The workflow's observable behaviour is the ordered trace of
events it performs plus the error it propagates, if any. The
`async with MultiServerMCPClient(...)` block opens the session and closes
it on every exit, normal or exceptional, before the exception continues to
the caller. -/

/-- Arguments of the `create_branch` call (source lines 118–123). -/
structure BranchArgs where
  owner : String
  repo : String
  branch : String
  from_branch : String
  deriving DecidableEq, Repr

/-- Arguments of the `push_files` call (source lines 129–135). -/
structure PushArgs where
  owner : String
  repo : String
  branch : String
  files : List FileRecord
  message : String
  deriving DecidableEq, Repr

/-- Arguments of the `create_pull_request` call (source lines 138–145). -/
structure PRArgs where
  owner : String
  repo : String
  title : String
  body : String
  head : String
  base : String
  deriving DecidableEq, Repr

/-- Observable events of one workflow run, in order. -/
inductive Event where
  | collectDone (files : List FileRecord)
  | sessionOpen (token : String)
  | callCreateBranch (args : BranchArgs)
  | logBranchCreated (branch : String)
  | logBranchContinue (branch : String)
  | callPushFiles (args : PushArgs)
  | callCreatePR (args : PRArgs)
  | logSuccess
  | sessionClose
  deriving DecidableEq, Repr

/-- The caller-supplied workflow request (the parameters of
`rCall_PushAndPR`; `dir_name` is the local root as path components). -/
structure WorkflowRequest where
  my_dir_name : String
  dir_name : List String
  branch_name : String
  pr_title : String
  pr_body : String
  git_token : String
  deriving DecidableEq, Repr

/-- The environment of one workflow run: the local filesystem, the MIME
table, the tool names the remote catalog reports, and for each remote
operation whether invoking it raises. -/
structure RemoteEnv where
  guessType : String → Option String
  fs : Fs
  tools : List String
  branchErr : Option String
  pushErr : Option String
  prErr : Option String

/-- The fixed owner of the target repository (hardcoded at source
lines 119, 130, 139). -/
def fixedOwner : String := "SGCS-Release-Git-Project"

/-- The fixed name of the target repository (hardcoded at source
lines 120, 131, 140). -/
def fixedRepo : String := "release-collect-game"

/-- Model of `rCall_PushAndPR` (source lines 79–149): collect the files,
open the
MCP session, look the three tools up in the catalog (a missing name raises
`KeyError`), then create-branch (any error swallowed and logged),
push-files and create-pull-request (errors propagate). Returns the event
trace together with the propagated error, if any. -/
def rCall_PushAndPR (env : RemoteEnv) (req : WorkflowRequest) :
    List Event × Option String :=
  match mCall_CollectFiles env.guessType env.fs req.dir_name req.my_dir_name with
  | .error e => ([], some e)
  | .ok files =>
    let opened := [Event.collectDone files, Event.sessionOpen req.git_token]
    if ¬ env.tools.contains "create_branch" then
      (opened ++ [.sessionClose], some "KeyError: create_branch")
    else if ¬ env.tools.contains "push_files" then
      (opened ++ [.sessionClose], some "KeyError: push_files")
    else if ¬ env.tools.contains "create_pull_request" then
      (opened ++ [.sessionClose], some "KeyError: create_pull_request")
    else
      let bargs : BranchArgs := ⟨fixedOwner, fixedRepo, req.branch_name, "main"⟩
      let branchStep :=
        Event.callCreateBranch bargs ::
          (match env.branchErr with
           | none => [Event.logBranchCreated req.branch_name]
           | some _ => [Event.logBranchContinue req.branch_name])
      let pargs : PushArgs :=
        ⟨fixedOwner, fixedRepo, req.branch_name, files, req.pr_title⟩
      match env.pushErr with
      | some e =>
          (opened ++ branchStep ++ [.callPushFiles pargs, .sessionClose], some e)
      | none =>
        let prargs : PRArgs :=
          ⟨fixedOwner, fixedRepo, req.pr_title, req.pr_body, req.branch_name, "main"⟩
        match env.prErr with
        | some e =>
            (opened ++ branchStep ++
               [.callPushFiles pargs, .callCreatePR prargs, .sessionClose],
             some e)
        | none =>
            (opened ++ branchStep ++
               [.callPushFiles pargs, .callCreatePR prargs, .logSuccess,
                .sessionClose],
             none)

/-! ## Helper lemmas -/

/-- On the base64 digit range, `b64charInv` inverts `b64char`, and the
alphabet never contains the padding character `=` (61). -/
theorem b64char_left_inverse :
    ∀ v < 64, b64charInv (b64char v) = v ∧ b64char v ≠ 61 := by decide

/-- Base64 round-trip: decoding the encoding of any byte string returns it
unchanged. -/
theorem b64decode_b64encode (l : List Nat) :
    (∀ b ∈ l, b < 256) → b64decode (b64encode l) = some l := by
  induction l using b64encode.induct with
  | case1 => intro _; rfl
  | case2 b0 =>
      intro h
      have hb0 : b0 < 256 := h b0 (by simp)
      have h1 := b64char_left_inverse (b0 / 4) (by omega)
      have h2 := b64char_left_inverse (b0 % 4 * 16) (by omega)
      simp [b64encode, b64decode, h1.1, h2.1]
      omega
  | case3 b0 b1 =>
      intro h
      have hb0 : b0 < 256 := h b0 (by simp)
      have hb1 : b1 < 256 := h b1 (by simp)
      have h1 := b64char_left_inverse (b0 / 4) (by omega)
      have h2 := b64char_left_inverse (b0 % 4 * 16 + b1 / 16) (by omega)
      have h3 := b64char_left_inverse (b1 % 16 * 4) (by omega)
      simp [b64encode, b64decode, h1.1, h2.1, h3.1, h3.2]
      omega
  | case4 b0 b1 b2 rest ih =>
      intro h
      have hb0 : b0 < 256 := h b0 (by simp)
      have hb1 : b1 < 256 := h b1 (by simp)
      have hb2 : b2 < 256 := h b2 (by simp)
      have h1 := b64char_left_inverse (b0 / 4) (by omega)
      have h2 := b64char_left_inverse (b0 % 4 * 16 + b1 / 16) (by omega)
      have h3 := b64char_left_inverse (b1 % 16 * 4 + b2 / 64) (by omega)
      have h4 := b64char_left_inverse (b2 % 64) (by omega)
      have hrest : b64decode (b64encode rest) = some rest :=
        ih (fun b hb => h b (by simp [hb]))
      simp [b64encode, b64decode, h1.1, h2.1, h3.1, h4.1, h3.2, h4.2, hrest]
      refine ⟨by omega, by omega, by omega⟩

/-- Every successfully read regular file in the traversal contributes its
record to a successful collection result. -/
theorem collectLoop_mem (g : String → Option String) (p : String)
    (rel : List String) (raw : List Nat) :
    ∀ (l : List (List String × EntryKind)) (recs : List FileRecord),
      collectLoop g p l = .ok recs → (rel, EntryKind.file (.ok raw)) ∈ l →
      mkRecord g p rel raw ∈ recs := by
  intro l
  induction l with
  | nil => intro recs _ hmem; cases hmem
  | cons hd tl ih =>
      intro recs hok hmem
      obtain ⟨relh, kh⟩ := hd
      cases kh with
      | dir =>
          rcases List.mem_cons.mp hmem with heq | hmem'
          · cases heq
          · exact ih recs (by simpa [collectLoop] using hok) hmem'
      | file rb =>
          cases rb with
          | error e => simp [collectLoop] at hok
          | ok rawh =>
              rcases hrec : collectLoop g p tl with e | others
              · simp [collectLoop, hrec] at hok
              · have hrecs : recs = mkRecord g p relh rawh :: others := by
                  simp [collectLoop, hrec] at hok
                  exact hok.symm
                subst hrecs
                rcases List.mem_cons.mp hmem with heq | hmem'
                · obtain ⟨h1, h2⟩ := Prod.mk.injEq .. ▸ heq
                  cases h1
                  cases h2
                  exact List.mem_cons_self _ _
                · exact List.mem_cons_of_mem _ (ih others hrec hmem')

/-- A record for a file found by `rglob` is in the collector's successful
output. -/
theorem collect_mem_of_rglob (g : String → Option String) (fs : Fs)
    (root : List String) (p : String) (rel : List String) (raw : List Nat)
    (recs : List FileRecord)
    (hmem : (rel, EntryKind.file (.ok raw)) ∈ rglob fs root)
    (hok : mCall_CollectFiles g fs root p = .ok recs) :
    mkRecord g p rel raw ∈ recs :=
  collectLoop_mem g p rel raw _ recs hok hmem

/-- Since `rglob` only reports paths strictly below the root, the relative
path of any reported entry is nonempty. -/
theorem rglob_rel_ne_nil (fs : Fs) (root rel : List String) (k : EntryKind)
    (hmem : (rel, k) ∈ rglob fs root) : rel ≠ [] := by
  intro hnil
  subst hnil
  unfold rglob at hmem
  split at hmem
  · obtain ⟨e, _, he⟩ := List.mem_filterMap.mp hmem
    unfold underRoot at he
    split at he
    · rename_i hcond
      obtain ⟨hpre, hne⟩ := hcond
      have hdropnil : e.path.drop root.length = [] := by
        simpa using congrArg (fun o => Option.map Prod.fst o) he
      have hpre' : root <+: e.path := List.isPrefixOf_iff_prefix.mp hpre
      have hle : e.path.length ≤ root.length := List.drop_eq_nil_iff.mp hdropnil
      exact hne (hpre'.eq_of_length (le_antisymm hpre'.length_le hle)).symm
    · simp at he
  · cases hmem

/-- A prefix string written as slash-terminated components:
`flattenSlash [c₁, …, cₙ] = c₁ ++ "/" ++ … ++ cₙ ++ "/"`. -/
def flattenSlash (comps : List (List Char)) : List Char :=
  comps.foldr (fun c acc => c ++ '/' :: acc) []

/-- Splitting after one slash-free component takes it off whole. -/
theorem splitSlash_comp_append (c : List Char) (t : List Char)
    (hc : '/' ∉ c) : splitSlash (c ++ '/' :: t) = c :: splitSlash t := by
  induction c with
  | nil => simp [splitSlash]
  | cons a c ih =>
      have ha : a ≠ '/' := fun h => hc (h ▸ List.mem_cons_self a c)
      have hc' : '/' ∉ c := fun h => hc (List.mem_cons_of_mem a h)
      simp only [List.cons_append, splitSlash, if_neg ha]
      rw [List.append_eq, ih hc']

/-- Splitting a slash-terminated component string recovers the components
followed by one empty piece. -/
theorem splitSlash_flattenSlash (comps : List (List Char))
    (h : ∀ c ∈ comps, '/' ∉ c) :
    splitSlash (flattenSlash comps) = comps ++ [[]] := by
  induction comps with
  | nil => rfl
  | cons c cs ih =>
      have hc : '/' ∉ c := h c (List.mem_cons_self c cs)
      have hcs : ∀ x ∈ cs, '/' ∉ x := fun x hx => h x (List.mem_cons_of_mem c hx)
      simp only [flattenSlash, List.foldr_cons]
      rw [splitSlash_comp_append c _ hc]
      simpa [flattenSlash] using congrArg (c :: ·) (ih hcs)

/-- Parsing a slash-terminated normalized component string keeps exactly
the components. -/
theorem parseParts_flattenSlash (comps : List (List Char))
    (h : ∀ c ∈ comps, c ≠ [] ∧ c ≠ ['.'] ∧ '/' ∉ c) :
    parseParts (flattenSlash comps) = comps := by
  unfold parseParts
  rw [splitSlash_flattenSlash comps (fun c hc => (h c hc).2.2)]
  rw [List.filter_append]
  have h1 : comps.filter keepComp = comps :=
    List.filter_eq_self.mpr fun c hc => by
      obtain ⟨hne, hdot, _⟩ := h c hc
      simp [keepComp, hne, hdot]
  have h2 : List.filter keepComp [([] : List Char)] = [] := by
    simp [keepComp]
  rw [h1, h2, List.append_nil]

/-- A slash-terminated normalized component string is a relative path:
its POSIX root is empty. -/
theorem posixRoot_flattenSlash (comps : List (List Char))
    (h : ∀ c ∈ comps, c ≠ [] ∧ '/' ∉ c) :
    posixRoot (flattenSlash comps) = [] := by
  cases comps with
  | nil => rfl
  | cons c cs =>
      obtain ⟨hne, hslash⟩ := h c (List.mem_cons_self c cs)
      cases c with
      | nil => exact absurd rfl hne
      | cons a c' =>
          have ha : a ≠ '/' := fun hh => hslash (hh ▸ List.mem_cons_self a c')
          simp [flattenSlash, posixRoot, ha]

/-- Joining components after prepending slash-terminated ones is plain
concatenation. -/
theorem joinComps_append (comps rel : List (List Char)) (hrel : rel ≠ []) :
    joinComps (comps ++ rel) = flattenSlash comps ++ joinComps rel := by
  induction comps with
  | nil => simp [flattenSlash]
  | cons c cs ih =>
      cases hcr : cs ++ rel with
      | nil => exact absurd (List.append_eq_nil.mp hcr).2 hrel
      | cons q r =>
          calc joinComps ((c :: cs) ++ rel)
              = c ++ '/' :: joinComps (cs ++ rel) := by
                rw [List.cons_append, hcr]; rfl
            _ = c ++ '/' :: (flattenSlash cs ++ joinComps rel) := by rw [ih]
            _ = flattenSlash (c :: cs) ++ joinComps rel := by
                simp [flattenSlash]

/-- On a slash-terminated normalized prefix, the `PurePosixPath` join is
plain string concatenation with a `/`-joined relative part. -/
theorem posixJoin_flattenSlash (comps : List (List Char))
    (rel : List (List Char)) (hrel : rel ≠ [])
    (h : ∀ c ∈ comps, c ≠ [] ∧ c ≠ ['.'] ∧ '/' ∉ c) :
    posixJoin (flattenSlash comps) rel = flattenSlash comps ++ joinComps rel := by
  unfold posixJoin
  rw [parseParts_flattenSlash comps h,
      posixRoot_flattenSlash comps (fun c hc => ⟨(h c hc).1, (h c hc).2.2⟩)]
  have hparts : comps ++ rel ≠ [] := fun hh => hrel (List.append_eq_nil.mp hh).2
  rw [if_neg (fun hh => hparts hh.2)]
  simpa using joinComps_append comps rel hrel

/-! ## Sample data for concrete instantiations -/

/-- A small MIME table: only `.txt`-named files are recognized as text,
everything else is unknown (as `mimetypes.guess_type` on an unknown
extension). -/
def sampleGuess : String → Option String :=
  fun n => if n = "a.txt" then some "text/plain" else none

/-- A root directory `r` holding a text file `a.txt` (bytes `"hi"`) and a
binary file `img.bin` (the JPEG magic bytes). -/
def sampleFs : Fs :=
  ⟨[⟨["r"], .dir⟩,
    ⟨["r", "a.txt"], .file (.ok [104, 105])⟩,
    ⟨["r", "img.bin"], .file (.ok [255, 216, 255])⟩]⟩

/-- A root directory `r` holding only a file whose read raises. -/
def unreadableFs : Fs :=
  ⟨[⟨["r"], .dir⟩, ⟨["r", "bad"], .file (.error "PermissionError")⟩]⟩

/-- A sample workflow request. -/
def sampleReq : WorkflowRequest :=
  ⟨"alice/", ["r"], "feat-b", "t", "b", "tok"⟩

/-- A sample environment over `sampleFs` with the full tool catalog and
chosen outcomes for the three remote calls. -/
def sampleEnv (branchErr pushErr prErr : Option String) : RemoteEnv :=
  ⟨sampleGuess, sampleFs, ["create_branch", "push_files", "create_pull_request"],
   branchErr, pushErr, prErr⟩

/-- The records `mCall_CollectFiles` produces on `sampleFs` with
remote prefix `"alice/"`. -/
def sampleRecords : List FileRecord :=
  [⟨"alice/a.txt", [104, 105], none⟩,
   ⟨"alice/img.bin", [47, 57, 106, 47], some "base64"⟩]

/-! ## Claims -/

/-- C1: for every regular file under the root whose filename-guessed MIME
type starts with `text/` and whose raw bytes decode as UTF-8, the
collector emits a record with no `encoding` field whose `content` equals
the file's UTF-8-decoded text. -/
theorem C1_text_file_plain_record (g : String → Option String) (fs : Fs)
    (root : List String) (pre : String) (rel : List String) (raw : List Nat)
    (mime : String) (cps : List Nat) (recs : List FileRecord)
    (hmem : (rel, EntryKind.file (.ok raw)) ∈ rglob fs root)
    (hmime : g (rel.getLastD "") = some mime)
    (htext : strStartsWith mime "text/" = true)
    (hdec : utf8Decode raw = some cps)
    (hok : mCall_CollectFiles g fs root pre = .ok recs) :
    FileRecord.mk (remotePathOf pre rel) cps none ∈ recs := by
  have h := collect_mem_of_rglob g fs root pre rel raw recs hmem hok
  simp only [mkRecord, hmime, htext, hdec] at h
  simpa using h

/-- Witness for C1 on `sampleFs`: the `a.txt` record is plain text. -/
theorem C1_text_file_plain_record_witness :
    FileRecord.mk (remotePathOf "alice/" ["a.txt"]) [104, 105] none ∈
      sampleRecords :=
  C1_text_file_plain_record sampleGuess sampleFs ["r"] "alice/" ["a.txt"]
    [104, 105] "text/plain" [104, 105] sampleRecords
    (by decide) (by decide) (by decide) (by decide) (by decide)

/-- C2: for every regular file whose MIME type cannot be guessed, is not
`text/*`, or whose bytes are not valid UTF-8, the collector emits a record
with `encoding = "base64"` whose content base64-decodes back to the
original raw bytes. -/
theorem C2_binary_record_roundtrip (g : String → Option String) (fs : Fs)
    (root : List String) (pre : String) (rel : List String) (raw : List Nat)
    (recs : List FileRecord)
    (hmem : (rel, EntryKind.file (.ok raw)) ∈ rglob fs root)
    (hok : mCall_CollectFiles g fs root pre = .ok recs)
    (hbytes : ∀ b ∈ raw, b < 256)
    (hbin : g (rel.getLastD "") = none ∨
      (∃ m, g (rel.getLastD "") = some m ∧ strStartsWith m "text/" = false) ∨
      utf8Decode raw = none) :
    FileRecord.mk (remotePathOf pre rel) (b64encode raw) (some "base64") ∈ recs ∧
    b64decode (b64encode raw) = some raw := by
  refine ⟨?_, b64decode_b64encode raw hbytes⟩
  have h := collect_mem_of_rglob g fs root pre rel raw recs hmem hok
  rcases hbin with hnone | ⟨m, hm, hnotext⟩ | hdec
  · simp only [mkRecord, hnone] at h
    simpa using h
  · simp only [mkRecord, hm, hnotext] at h
    simpa using h
  · cases hg : g (rel.getLastD "") with
    | none =>
        simp only [mkRecord, hg] at h
        simpa using h
    | some m =>
        cases htext : strStartsWith m "text/" with
        | false =>
            simp only [mkRecord, hg, htext] at h
            simpa using h
        | true =>
            simp only [mkRecord, hg, htext, hdec] at h
            simpa using h

/-- Witness for C2 on `sampleFs`: the `img.bin` record is base64 and
decodes back to the JPEG magic bytes. -/
theorem C2_binary_record_roundtrip_witness :
    FileRecord.mk (remotePathOf "alice/" ["img.bin"])
        (b64encode [255, 216, 255]) (some "base64") ∈ sampleRecords ∧
    b64decode (b64encode [255, 216, 255]) = some [255, 216, 255] :=
  C2_binary_record_roundtrip sampleGuess sampleFs ["r"] "alice/" ["img.bin"]
    [255, 216, 255] sampleRecords (by decide) (by decide) (by decide)
    (Or.inl (by decide))

/-- Whatever branch classification takes, the record's path is the
`PurePosixPath` join of the remote prefix and the relative path. -/
theorem mkRecord_path (g : String → Option String) (p : String)
    (rel : List String) (raw : List Nat) :
    (mkRecord g p rel raw).path = remotePathOf p rel := by
  unfold mkRecord
  cases g (rel.getLastD "") with
  | none => rfl
  | some m =>
      by_cases h : strStartsWith m "text/" = true
      · simp only [h, if_true]
        cases utf8Decode raw <;> rfl
      · simp only [Bool.not_eq_true] at h
        simp only [h, Bool.false_eq_true, if_false]

/-- C3 counterexample: with remote prefix `"alice"` (no trailing slash)
the collector produces the path `"alice/a.txt"`, which is not the plain
concatenation of the prefix with the relative path. -/
theorem C3_counterexample :
    mCall_CollectFiles sampleGuess sampleFs ["r"] "alice" =
      .ok [⟨"alice/a.txt", [104, 105], none⟩,
           ⟨"alice/img.bin", [47, 57, 106, 47], some "base64"⟩] ∧
    ("alice/a.txt" : String) ≠ "alice" ++ "a.txt" := by
  decide

/-- C3 (amended): for every collected file, the record's path is
`str(PurePosixPath(prefix) / relative-path)`; when the prefix is a run of
slash-terminated components, each nonempty, not `"."` and slash-free (as
the default `"my_dir_name/"` is), this equals the prefix concatenated with
the `/`-joined relative path. -/
theorem C3_remote_path_posix_join (g : String → Option String) (fs : Fs)
    (root : List String) (pre : String) (comps : List (List Char))
    (rel : List String) (raw : List Nat) (recs : List FileRecord)
    (hpre : pre.data = flattenSlash comps)
    (hcomps : ∀ c ∈ comps, c ≠ [] ∧ c ≠ ['.'] ∧ '/' ∉ c)
    (hmem : (rel, EntryKind.file (.ok raw)) ∈ rglob fs root)
    (hok : mCall_CollectFiles g fs root pre = .ok recs) :
    mkRecord g pre rel raw ∈ recs ∧
    (mkRecord g pre rel raw).path =
      pre ++ (⟨joinComps (rel.map String.data)⟩ : String) := by
  refine ⟨collect_mem_of_rglob g fs root pre rel raw recs hmem hok, ?_⟩
  have hrelne : rel ≠ [] := rglob_rel_ne_nil fs root rel _ hmem
  have hrelne' : rel.map String.data ≠ [] := by
    simpa using hrelne
  calc (mkRecord g pre rel raw).path
      = remotePathOf pre rel := mkRecord_path g pre rel raw
    _ = ⟨posixJoin pre.data (rel.map String.data)⟩ := rfl
    _ = ⟨pre.data ++ joinComps (rel.map String.data)⟩ := by
          rw [hpre, posixJoin_flattenSlash comps _ hrelne' hcomps]
    _ = pre ++ (⟨joinComps (rel.map String.data)⟩ : String) := by
          cases pre
          rfl

/-- Witness for the amended C3 on `sampleFs` with the slash-terminated
prefix `"alice/"`. -/
theorem C3_remote_path_posix_join_witness :
    mkRecord sampleGuess "alice/" ["a.txt"] [104, 105] ∈ sampleRecords ∧
    (mkRecord sampleGuess "alice/" ["a.txt"] [104, 105]).path =
      "alice/" ++ (⟨joinComps (["a.txt"].map String.data)⟩ : String) :=
  C3_remote_path_posix_join sampleGuess sampleFs ["r"] "alice/"
    [['a', 'l', 'i', 'c', 'e']] ["a.txt"] [104, 105] sampleRecords
    (by decide) (by decide) (by decide) (by decide)

/-- C7: collecting an empty root directory yields an empty sequence of
records and no error. -/
theorem C7_empty_root_ok (g : String → Option String) (fs : Fs)
    (root : List String) (pre : String)
    (hdir : isDirAt fs root = true)
    (hempty : ∀ e ∈ fs.entries, underRoot root e.path = none) :
    mCall_CollectFiles g fs root pre = .ok [] := by
  unfold mCall_CollectFiles rglob
  simp only [hdir, if_true]
  rw [List.filterMap_eq_nil_iff.mpr fun e he => by rw [hempty e he]; rfl]
  rfl

/-- Witness for C7: a filesystem holding only the empty directory `r`. -/
theorem C7_empty_root_ok_witness :
    mCall_CollectFiles sampleGuess ⟨[⟨["r"], .dir⟩]⟩ ["r"] "alice/" = .ok [] :=
  C7_empty_root_ok sampleGuess ⟨[⟨["r"], .dir⟩]⟩ ["r"] "alice/"
    (by decide) (by decide)

/-- C10: when the root path is not an existing directory, `rglob` yields
no entries and the collector returns an empty list instead of raising. -/
theorem C10_missing_root_ok (g : String → Option String) (fs : Fs)
    (root : List String) (pre : String)
    (hdir : isDirAt fs root = false) :
    mCall_CollectFiles g fs root pre = .ok [] := by
  unfold mCall_CollectFiles rglob
  simp only [hdir, Bool.false_eq_true, if_false]
  rfl

/-- Witness for C10: a completely empty filesystem (the root does not
exist). -/
theorem C10_missing_root_ok_witness :
    mCall_CollectFiles sampleGuess ⟨[]⟩ ["missing"] "alice/" = .ok [] :=
  C10_missing_root_ok sampleGuess ⟨[]⟩ ["missing"] "alice/" (by decide)

/-- Is an event a `push_files` invocation? -/
def isPushEvent : Event → Bool
  | .callPushFiles _ => true
  | _ => false

/-- The repository coordinates every remote call must carry: the fixed
owner and repo, branch created from `main`, pull request based on
`main`. -/
def eventCoordsOk : Event → Prop
  | .callCreateBranch a =>
      a.owner = fixedOwner ∧ a.repo = fixedRepo ∧ a.from_branch = "main"
  | .callPushFiles a => a.owner = fixedOwner ∧ a.repo = fixedRepo
  | .callCreatePR a =>
      a.owner = fixedOwner ∧ a.repo = fixedRepo ∧ a.base = "main"
  | _ => True

/-- C4: if `create_branch` raises, the workflow swallows the error, logs a
continuation message, and still invokes `push_files` with the collector's
files list; the propagated outcome is decided by the push and PR steps
alone, so no branch-creation failure aborts the workflow. -/
theorem C4_branch_error_swallowed (env : RemoteEnv) (req : WorkflowRequest)
    (err : String) (files : List FileRecord)
    (hberr : env.branchErr = some err)
    (ht1 : env.tools.contains "create_branch" = true)
    (ht2 : env.tools.contains "push_files" = true)
    (ht3 : env.tools.contains "create_pull_request" = true)
    (hok : mCall_CollectFiles env.guessType env.fs req.dir_name
      req.my_dir_name = .ok files) :
    Event.logBranchContinue req.branch_name ∈ (rCall_PushAndPR env req).1 ∧
    Event.callPushFiles
        ⟨fixedOwner, fixedRepo, req.branch_name, files, req.pr_title⟩ ∈
      (rCall_PushAndPR env req).1 ∧
    (rCall_PushAndPR env req).2 =
      (match env.pushErr with | some e => some e | none => env.prErr) := by
  unfold rCall_PushAndPR
  rw [hok]
  simp only [ht1, ht2, ht3, hberr]
  cases env.pushErr <;> cases env.prErr <;> simp

/-- Witness for C4: branch creation fails, push and PR succeed. -/
theorem C4_branch_error_swallowed_witness :
    Event.logBranchContinue "feat-b" ∈
      (rCall_PushAndPR (sampleEnv (some "E") none none) sampleReq).1 ∧
    Event.callPushFiles ⟨fixedOwner, fixedRepo, "feat-b", sampleRecords, "t"⟩ ∈
      (rCall_PushAndPR (sampleEnv (some "E") none none) sampleReq).1 ∧
    (rCall_PushAndPR (sampleEnv (some "E") none none) sampleReq).2 =
      (match (sampleEnv (some "E") none none).pushErr with
       | some e => some e
       | none => (sampleEnv (some "E") none none).prErr) :=
  C4_branch_error_swallowed (sampleEnv (some "E") none none) sampleReq
    "E" sampleRecords (by decide) (by decide) (by decide) (by decide)
    (by decide)

/-- C5: if `push_files` raises, the error propagates to the caller,
`create_pull_request` is never invoked, and `push_files` is invoked
exactly once (no retry). -/
theorem C5_push_error_propagates (env : RemoteEnv) (req : WorkflowRequest)
    (err : String) (files : List FileRecord)
    (hperr : env.pushErr = some err)
    (ht1 : env.tools.contains "create_branch" = true)
    (ht2 : env.tools.contains "push_files" = true)
    (ht3 : env.tools.contains "create_pull_request" = true)
    (hok : mCall_CollectFiles env.guessType env.fs req.dir_name
      req.my_dir_name = .ok files) :
    (rCall_PushAndPR env req).2 = some err ∧
    (∀ a : PRArgs, Event.callCreatePR a ∉ (rCall_PushAndPR env req).1) ∧
    ((rCall_PushAndPR env req).1.filter isPushEvent).length = 1 := by
  unfold rCall_PushAndPR
  rw [hok]
  simp only [ht1, ht2, ht3, hperr]
  cases env.branchErr <;> simp [isPushEvent]

/-- Witness for C5: push fails after a successful branch creation. -/
theorem C5_push_error_propagates_witness :
    (rCall_PushAndPR (sampleEnv none (some "PushFail") none) sampleReq).2 =
      some "PushFail" ∧
    (∀ a : PRArgs, Event.callCreatePR a ∉
      (rCall_PushAndPR (sampleEnv none (some "PushFail") none) sampleReq).1) ∧
    ((rCall_PushAndPR (sampleEnv none (some "PushFail") none)
        sampleReq).1.filter isPushEvent).length = 1 :=
  C5_push_error_propagates (sampleEnv none (some "PushFail") none) sampleReq
    "PushFail" sampleRecords (by decide) (by decide) (by decide) (by decide)
    (by decide)

/-- C6: every remote call the workflow ever performs targets the fixed
hardcoded repository coordinates, the branch is created from `main`, and
the pull request targets base `main`, for every environment and request. -/
theorem C6_fixed_repository_coordinates (env : RemoteEnv)
    (req : WorkflowRequest) :
    ∀ ev ∈ (rCall_PushAndPR env req).1, eventCoordsOk ev := by
  unfold rCall_PushAndPR
  cases hc : mCall_CollectFiles env.guessType env.fs req.dir_name
      req.my_dir_name with
  | error e => simp
  | ok files =>
      by_cases h1 : env.tools.contains "create_branch" = true <;>
        by_cases h2 : env.tools.contains "push_files" = true <;>
          by_cases h3 : env.tools.contains "create_pull_request" = true <;>
            simp only [h1, h2, h3] <;>
              cases env.branchErr <;> cases env.pushErr <;> cases env.prErr <;>
                simp [eventCoordsOk]

/-- Witness for C6: the branch-creation call of a concrete successful run
carries the fixed coordinates. -/
theorem C6_fixed_repository_coordinates_witness :
    eventCoordsOk (Event.callCreateBranch
      ⟨"SGCS-Release-Git-Project", "release-collect-game", "feat-b", "main"⟩) :=
  C6_fixed_repository_coordinates (sampleEnv none none none) sampleReq
    (Event.callCreateBranch
      ⟨"SGCS-Release-Git-Project", "release-collect-game", "feat-b", "main"⟩)
    (by decide)

/-- C8: the files list is fully built before the session is opened: a
collection error makes the whole workflow return that error with no
remote activity at all, and on success the trace starts with the finished
collection followed by the session opening. -/
theorem C8_collection_before_session (env : RemoteEnv)
    (req : WorkflowRequest) :
    (∀ e, mCall_CollectFiles env.guessType env.fs req.dir_name
        req.my_dir_name = .error e → rCall_PushAndPR env req = ([], some e)) ∧
    (∀ files, mCall_CollectFiles env.guessType env.fs req.dir_name
        req.my_dir_name = .ok files →
      ∃ rest, (rCall_PushAndPR env req).1 =
        Event.collectDone files :: Event.sessionOpen req.git_token :: rest) := by
  constructor
  · intro e he
    unfold rCall_PushAndPR
    rw [he]
  · intro files hf
    unfold rCall_PushAndPR
    rw [hf]
    by_cases h1 : env.tools.contains "create_branch" = true <;>
      by_cases h2 : env.tools.contains "push_files" = true <;>
        by_cases h3 : env.tools.contains "create_pull_request" = true <;>
          simp only [h1, h2, h3] <;>
            cases env.branchErr <;> cases env.pushErr <;> cases env.prErr <;>
              exact ⟨_, rfl⟩

/-- Witness for C8: a root holding an unreadable file aborts the workflow
before any remote event. -/
theorem C8_collection_before_session_witness :
    rCall_PushAndPR
        ⟨sampleGuess, unreadableFs,
         ["create_branch", "push_files", "create_pull_request"],
         none, none, none⟩ sampleReq = ([], some "PermissionError") :=
  (C8_collection_before_session
      ⟨sampleGuess, unreadableFs,
       ["create_branch", "push_files", "create_pull_request"],
       none, none, none⟩ sampleReq).1 "PermissionError" (by decide)

/-- C9: the session is scoped to the run: whenever it is opened the trace
ends with the session closing (on success and on every failing step), and
the session is already open when the branch step runs. -/
theorem C9_session_released_every_path (env : RemoteEnv)
    (req : WorkflowRequest) :
    ((∃ t, Event.sessionOpen t ∈ (rCall_PushAndPR env req).1) →
      ((rCall_PushAndPR env req).1).getLast? = some Event.sessionClose) ∧
    (∀ a, Event.callCreateBranch a ∈ (rCall_PushAndPR env req).1 →
      Event.sessionOpen req.git_token ∈ (rCall_PushAndPR env req).1) := by
  unfold rCall_PushAndPR
  cases hc : mCall_CollectFiles env.guessType env.fs req.dir_name
      req.my_dir_name with
  | error e =>
      constructor
      · rintro ⟨t, ht⟩
        simp at ht
      · intro a ha
        simp at ha
  | ok files =>
      by_cases h1 : env.tools.contains "create_branch" = true <;>
        by_cases h2 : env.tools.contains "push_files" = true <;>
          by_cases h3 : env.tools.contains "create_pull_request" = true <;>
            simp only [h1, h2, h3] <;>
              cases env.branchErr <;> cases env.pushErr <;> cases env.prErr <;>
                exact ⟨fun _ => rfl, fun a _ => by simp⟩

/-- Witness for C9: on a run where the pull-request step fails the trace
still ends by closing the session. -/
theorem C9_session_released_every_path_witness :
    ((rCall_PushAndPR (sampleEnv none none (some "PRFail")) sampleReq).1).getLast? =
      some Event.sessionClose :=
  (C9_session_released_every_path (sampleEnv none none (some "PRFail"))
      sampleReq).1 ⟨"tok", by decide⟩

end McpGit
